import Mathlib

/-!
Verification development for the yoloflow-tech traffic-signal simulator.

The embedding models the scheduler and genetic optimizer of
`src/pages/Index.tsx` and `src/utils/trafficAnalysis.ts`.  JavaScript
numbers are modelled as rationals; `Math.ceil`, `Math.floor` and
`Math.round` are the corresponding integer-valued maps on rationals.
-/

namespace YoloFlow

/-- Math.ceil on a rational. -/
def jsCeil (q : ℚ) : ℤ := ⌈q⌉

/-- Math.floor on a rational. -/
def jsFloor (q : ℚ) : ℤ := ⌊q⌋

/-- Math.round on a rational (round half up, as in JavaScript). -/
def jsRound (q : ℚ) : ℤ := ⌊q + 1/2⌋

/-- Math.max on two rationals.  Equal to `max` (see `jsMax_eq_max`) but
kept as an explicit conditional so that concrete runs reduce in the
kernel. -/
def jsMax (a b : ℚ) : ℚ := if a ≤ b then b else a


/-- Signal colors of a lane (`signalState` in Index.tsx). -/
inductive SignalState where
  | green
  | yellow
  | red
deriving DecidableEq, Repr

/-- The per-lane record of Index.tsx (`LaneData`).  The `image` field is
modelled by a Boolean `hasImage` flag (only `image !== null` is ever
inspected by the scheduler). -/
structure LaneData where
  hasImage : Bool
  vehicleCount : ℚ
  hasEmergency : Bool
  congestionLevel : ℚ
  signalState : SignalState
  waitingTime : ℚ
  greenDuration : ℚ
deriving DecidableEq, Repr

instance : Inhabited LaneData :=
  ⟨{ hasImage := false, vehicleCount := 0, hasEmergency := false,
     congestionLevel := 0, signalState := .red, waitingTime := 0,
     greenDuration := 0 }⟩

/-- The object built for each lane inside the `laneOrder` computation of
`runCycle` (Index.tsx lines 152-171). -/
structure OrderEntry where
  idx : ℕ
  priority : ℚ
  vehicleCount : ℚ
  halfVehicles : ℤ
  greenTime : ℚ
  isEmergency : Bool
deriving DecidableEq, Repr

instance : Inhabited OrderEntry :=
  ⟨{ idx := 0, priority := 0, vehicleCount := 0, halfVehicles := 0,
     greenTime := 0, isEmergency := false }⟩

/-- The `.map((lane, idx) => ...)` body of the `laneOrder` computation:
half-clearance green time, emergency sentinel priority. -/
def mkOrderEntry (idx : ℕ) (lane : LaneData) : OrderEntry :=
  let halfVehicles : ℤ := jsCeil (lane.vehicleCount / 2)
  let timePerVehicle : ℚ := if lane.hasEmergency then 2 else 3
  let halfClearanceTime : ℚ := (halfVehicles : ℚ) * timePerVehicle
  { idx := idx
    priority := if lane.hasEmergency then 100000 else lane.congestionLevel
    vehicleCount := lane.vehicleCount
    halfVehicles := halfVehicles
    greenTime :=
      if lane.hasEmergency then jsMax 15 halfClearanceTime
      else jsMax 10 halfClearanceTime
    isEmergency := lane.hasEmergency }

/-- The JavaScript sort comparator of `laneOrder` (Index.tsx lines
173-179): emergency lanes first, then descending `priority`. -/
def laneCmp (a b : OrderEntry) : ℚ :=
  if a.isEmergency && !b.isEmergency then -1
  else if !a.isEmergency && b.isEmergency then 1
  else b.priority - a.priority

/-- `laneLe a b` holds when the comparator allows `a` at or before `b`
(comparator value at most 0).  `Array.prototype.sort` is stable and this
comparator is a total preorder, so the sorted result is the unique stable
sort by this relation. -/
def laneLe (a b : OrderEntry) : Prop := laneCmp a b ≤ 0

instance : DecidableRel laneLe := fun a b => by
  unfold laneLe; infer_instance

instance : IsTotal OrderEntry laneLe := by
  constructor
  intro a b
  unfold laneLe laneCmp
  rcases ha : a.isEmergency <;> rcases hb : b.isEmergency <;> simp <;>
    exact le_total _ _

instance : IsTrans OrderEntry laneLe := by
  constructor
  intro a b c hab hbc
  unfold laneLe laneCmp at *
  rcases ha : a.isEmergency <;> rcases hb : b.isEmergency <;> rcases hc : c.isEmergency <;>
    simp [ha, hb, hc] at * <;> linarith

/-- The `.map((lane, idx) => ...)` step of `laneOrder`: each lane paired
with its index, in lane order. -/
def mkEntries : ℕ → List LaneData → List OrderEntry
  | _, [] => []
  | i, lane :: rest => mkOrderEntry i lane :: mkEntries (i + 1) rest

/-- The full `laneOrder` value computed each cycle (Index.tsx lines
152-179): map each lane with its index, drop empty lanes, stable-sort by
`laneCmp`.  `Array.prototype.sort` is a stable sort and `laneCmp` is a
consistent comparator, so the result equals the stable insertion sort by
`laneLe`. -/
def laneOrder (lanes : List LaneData) : List OrderEntry :=
  ((mkEntries 0 lanes).filter fun e => decide (0 < e.vehicleCount)).insertionSort laneLe

/-- Strict order realised by the stable sort: comparator strictly
smaller, or a comparator tie resolved by the original lane index. -/
def laneBefore (a b : OrderEntry) : Prop :=
  laneCmp a b < 0 ∨ (laneCmp a b = 0 ∧ a.idx < b.idx)

/-- A lane snapshot refuting C1's tie rule: both lanes carry an emergency
vehicle, lane 1 is far more congested, yet the order keeps lane 0 first. -/
def C1laneLow : LaneData :=
  { hasImage := true, vehicleCount := 4, hasEmergency := true, congestionLevel := 10,
    signalState := .red, waitingTime := 0, greenDuration := 0 }

/-- Companion lane for the C1 counterexample (congestion 90). -/
def C1laneHigh : LaneData :=
  { hasImage := true, vehicleCount := 4, hasEmergency := true, congestionLevel := 90,
    signalState := .red, waitingTime := 0, greenDuration := 0 }

/-- The green-time rule exactly as the claim and spec state it (clearance
fraction 0.75 for emergency lanes and 0.50 otherwise, 2s/3s per vehicle,
floor 20s for emergency and 10s for regular lanes); written from the
spec's words only, to compare against the source's `mkOrderEntry`. -/
def specGreenTimeRule (lane : LaneData) : ℚ :=
  let clearanceFrac : ℚ := if lane.hasEmergency then 3/4 else 1/2
  let vehiclesToClear : ℤ := jsCeil (lane.vehicleCount * clearanceFrac)
  let timePerVehicle : ℚ := if lane.hasEmergency then 2 else 3
  let floorTime : ℚ := if lane.hasEmergency then 20 else 10
  jsMax floorTime ((vehiclesToClear : ℚ) * timePerVehicle)

/-- Emergency lane with 4 vehicles used to refute C2's green-time rule. -/
def C2lane : LaneData :=
  { hasImage := true, vehicleCount := 4, hasEmergency := true, congestionLevel := 50,
    signalState := .red, waitingTime := 0, greenDuration := 0 }

/-- `Array.prototype.findIndex` on order entries: first index whose
entry satisfies the predicate, counting from `i`; -1 when none does. -/
def findIdxAux (p : OrderEntry → Bool) : List OrderEntry → ℕ → ℤ
  | [], _ => -1
  | e :: rest, i => if p e then (i : ℤ) else findIdxAux p rest (i + 1)

/-- `laneOrder.findIndex(item => item.idx === idx)` (Index.tsx line 189);
-1 when the lane index does not occur in the service order. -/
def jsFindIdx (order : List OrderEntry) (idx : ℕ) : ℤ :=
  findIdxAux (fun e => e.idx == idx) order 0

/-- The `while (pos !== lanePosition)` loop of the waiting-time
computation (Index.tsx lines 192-199), with an explicit fuel bound:
`none` means the loop has not finished after `fuel` guard checks.  Each
iteration adds the green time at the current position and advances the
position cyclically, exactly as the source. -/
def waitLoopGo (order : List OrderEntry) (lanePosition : ℤ) :
    ℕ → ℕ → ℚ → Option ℚ
  | 0, _, _ => none
  | fuel + 1, pos, waitTime =>
    if (pos : ℤ) = lanePosition then some waitTime
    else
      waitLoopGo order lanePosition fuel ((pos + 1) % order.length)
        (waitTime + (order.getD (pos % order.length) default).greenTime)

/-- One entry of the `newWaitTimes` array (Index.tsx lines 186-202): 0
for the active lane, otherwise the circular sum of green times between
the current position and this lane's position. -/
def newWaitTime (order : List OrderEntry) (currentLaneIdx cycleIndex idx fuel : ℕ) :
    Option ℚ :=
  if idx = currentLaneIdx then some 0
  else waitLoopGo order (jsFindIdx order idx) fuel (cycleIndex % order.length) 0

/-- The whole `newWaitTimes` array for one cycle, with fuel
`order.length` per entry (sufficient whenever the source loop terminates
at all; see the C3 and C8 theorems). -/
def cycleWaitTimes (capturedLanes : List LaneData) (order : List OrderEntry)
    (currentLaneIdx cycleIndex : ℕ) : List (Option ℚ) :=
  (List.range capturedLanes.length).map fun idx =>
    newWaitTime order currentLaneIdx cycleIndex idx order.length

/-- Lane 0 of the spec's termination test snapshot: 5 vehicles,
congestion 40. -/
def C3lane0 : LaneData :=
  { hasImage := true, vehicleCount := 5, hasEmergency := false, congestionLevel := 40,
    signalState := .red, waitingTime := 0, greenDuration := 0 }

/-- Lane 1 of the spec's termination test snapshot: empty. -/
def C3lane1 : LaneData :=
  { hasImage := true, vehicleCount := 0, hasEmergency := false, congestionLevel := 0,
    signalState := .red, waitingTime := 0, greenDuration := 0 }

/-- The spec's own termination test snapshot: lane 0 holds 5 vehicles at
congestion 40, lane 1 is empty. -/
def C3lanes : List LaneData := [C3lane0, C3lane1]

/-- Population size `P` of the genetic algorithm
(trafficAnalysis.ts line 348). -/
def populationSize : ℕ := 100

/-- Elite count `E` (trafficAnalysis.ts line 351). -/
def eliteSize : ℕ := 20

/-- Per-gene mutation probability (trafficAnalysis.ts line 349). -/
def mutationRate : ℚ := 0.15

/-- Crossover probability (trafficAnalysis.ts line 350). -/
def crossoverRate : ℚ := 0.8

/-- Tournament size used by selectParent (trafficAnalysis.ts line 449). -/
def tournamentSize : ℕ := 5

/-- A GA chromosome: one candidate green-time allocation with its score
(trafficAnalysis.ts lines 341-344). -/
structure Chromosome where
  greenTimes : List ℚ
  fitness : ℚ
deriving DecidableEq, Repr

instance : Inhabited Chromosome := ⟨⟨[], 0⟩⟩

/-- One iteration of the `forEach` body of `calculateFitness`
(trafficAnalysis.ts lines 369-408).  The accumulator is `none` once any
term is NaN; in the source the only NaN source on rational inputs is an
out-of-range read of `congestionLevels[i]` (undefined / 100), which
poisons the accumulated fitness through every later `+=`/`-=`.
Consecutive `+=` of the emergency block are summed in one update. -/
def fitnessLaneStep (hasAnyEmergency : Bool) (totalTime time : ℚ)
    (congestionAt : Option ℚ) (emergency : Bool) (acc : Option ℚ) : Option ℚ :=
  let acc1 := if emergency then
      acc.map fun f =>
        f + time * 30 + (if 25 ≤ time then 200 else 0) +
          (if 40 ≤ time then 300 else 0) + 500
    else if hasAnyEmergency then acc.map fun f => f - time * 5
    else acc
  let acc2 := match congestionAt with
    | some c => acc1.map fun f => f + time * (c / 100) * (if hasAnyEmergency then 0.5 else 2)
    | none => none
  let acc3 := if emergency then acc2
    else if 20 ≤ time ∧ time ≤ 70 then acc2.map fun f => f + 10
    else if time < 15 ∨ 90 < time then acc2.map fun f => f - 50
    else acc2
  if hasAnyEmergency then acc3
  else if 0.15 < time / totalTime ∧ time / totalTime < 0.4 then acc3.map fun f => f + 15
  else acc3

/-- `calculateFitness` (trafficAnalysis.ts lines 360-417).  Only the
chromosome's `greenTimes` are read, so the function takes the list
directly.  Out-of-range reads of `emergencyFlags[i]` give `undefined`,
which is falsy in every use, hence `getD i false`; out-of-range reads of
`congestionLevels[i]` make the result NaN (`none`).  The division
`time / totalTime` is only compared against 0.15 and 0.4; for
`totalTime = 0` the comparison fails in the source (NaN / ±Infinity) and
in the model (division by zero gives 0), so the bonus is skipped in
both. -/
def calculateFitness (greenTimes congestionLevels : List ℚ)
    (emergencyFlags : List Bool) : Option ℚ :=
  let totalTime := greenTimes.sum
  let hasAnyEmergency := emergencyFlags.any fun f => f
  let body := (List.range greenTimes.length).foldl
    (fun acc i =>
      fitnessLaneStep hasAnyEmergency totalTime (greenTimes.getD i 0)
        (congestionLevels.get? i) (emergencyFlags.getD i false) acc)
    (some 0)
  let maxCycleTime : ℚ := if hasAnyEmergency then 400 else 300
  if maxCycleTime < totalTime then body.map fun f => f - (totalTime - maxCycleTime) * 0.5
  else body

/-- One lane's contribution to the fitness as the spec's reference
algorithm states it (§4.2); written from the spec's words only, to be
compared with `calculateFitness`. -/
def specFitnessLane (hasAnyEmergency : Bool) (totalTime g c : ℚ) (e : Bool) : ℚ :=
  (if e then g * 30 + (if 25 ≤ g then 200 else 0) + (if 40 ≤ g then 300 else 0) + 500
   else if hasAnyEmergency then -(g * 5) else 0)
  + g * (c / 100) * (if hasAnyEmergency then 0.5 else 2)
  + (if e then 0 else if 20 ≤ g ∧ g ≤ 70 then 10
     else if g < 15 ∨ 90 < g then -50 else 0)
  + (if hasAnyEmergency then 0
     else if 0.15 < g / totalTime ∧ g / totalTime < 0.4 then 15 else 0)

/-- The spec's reference fitness (§4.2): per-lane sums plus the
cycle-length penalty; defined for equal-length inputs (the spec's
contract). -/
def specFitness (greenTimes congestionLevels : List ℚ)
    (emergencyFlags : List Bool) : ℚ :=
  let totalTime := greenTimes.sum
  let hasAnyEmergency := emergencyFlags.any fun f => f
  let maxCycleTime : ℚ := if hasAnyEmergency then 400 else 300
  ((List.range greenTimes.length).map fun i =>
    specFitnessLane hasAnyEmergency totalTime (greenTimes.getD i 0)
      (congestionLevels.getD i 0) (emergencyFlags.getD i false)).sum
  - (if maxCycleTime < totalTime then (totalTime - maxCycleTime) * 0.5 else 0)

/-- The ambient `Math.random()` stream: draw `i` of a run.  All theorems
about random operators assume `ValidRng`, i.e. every draw lies in
[0, 1) as `Math.random()` guarantees. -/
def ValidRng (rng : ℕ → ℚ) : Prop := ∀ i, 0 ≤ rng i ∧ rng i < 1

/-- `Math.floor(r * len)`, the uniform index draw used by tournament
selection and crossover. -/
def jsRandIdx (r : ℚ) (len : ℕ) : ℕ := (jsFloor (r * (len : ℚ))).toNat

/-- The fitness value stored by `evolve`'s scoring pass.  In every
reachable call the congestion vector covers the chromosome, so
`calculateFitness` is `some` (see the C4 theorem); `getD 0` keeps the
model total. -/
def scoreFitness (greenTimes congestionLevels : List ℚ)
    (emergencyFlags : List Bool) : ℚ :=
  (calculateFitness greenTimes congestionLevels emergencyFlags).getD 0

/-- The descending-fitness sort relation of `evolve`
(`(a, b) => b.fitness - a.fitness`, trafficAnalysis.ts line 426):
comparator value at most 0. -/
def fitnessGe (a b : Chromosome) : Prop := b.fitness ≤ a.fitness

instance : DecidableRel fitnessGe := fun a b => by
  unfold fitnessGe; infer_instance

instance : IsTotal Chromosome fitnessGe :=
  ⟨fun a b => le_total b.fitness a.fitness⟩

instance : IsTrans Chromosome fitnessGe :=
  ⟨fun _ _ _ hab hbc => le_trans hbc hab⟩

/-- Tournament selection (trafficAnalysis.ts lines 447-455): five uniform
draws with replacement, keep the highest fitness (JS `reduce` keeps the
earlier element on ties).  Returns the winner and the next unused draw
index. -/
def selectParent (rng : ℕ → ℚ) (k : ℕ) (pop : List Chromosome) :
    Chromosome × ℕ :=
  let tournament := (List.range tournamentSize).map fun j =>
    pop.getD (jsRandIdx (rng (k + j)) pop.length) default
  (match tournament with
   | [] => default
   | t :: ts => ts.foldl (fun best cur => if best.fitness < cur.fitness then cur else best) t,
   k + tournamentSize)

/-- Single-point crossover (trafficAnalysis.ts lines 457-466). -/
def crossover (r : ℚ) (p1 p2 : Chromosome) : Chromosome :=
  let crossoverPoint := jsRandIdx r p1.greenTimes.length
  { greenTimes := p1.greenTimes.take crossoverPoint ++ p2.greenTimes.drop crossoverPoint,
    fitness := 0 }

/-- Per-gene mutation (trafficAnalysis.ts lines 468-475): each gene
consumes one draw for the coin and, when it mutates, a second draw for
the fresh value `random()*60+20`.  Returns the genes and the next unused
draw index. -/
def mutateGenes (rng : ℕ → ℚ) : ℕ → List ℚ → List ℚ × ℕ
  | k, [] => ([], k)
  | k, t :: ts =>
    if rng k < mutationRate then
      let rest := mutateGenes rng (k + 2) ts
      ((rng (k + 1) * 60 + 20) :: rest.1, rest.2)
    else
      let rest := mutateGenes rng (k + 1) ts
      (t :: rest.1, rest.2)

/-- `mutate` keeps the chromosome's fitness field
(trafficAnalysis.ts line 473). -/
def mutate (rng : ℕ → ℚ) (k : ℕ) (c : Chromosome) : Chromosome × ℕ :=
  let res := mutateGenes rng k c.greenTimes
  ({ greenTimes := res.1, fitness := c.fitness }, res.2)

/-- The `while (newPopulation.length < populationSize)` reproduction loop
of `evolve` (trafficAnalysis.ts lines 432-441); each iteration appends
exactly one chromosome, so the loop runs `populationSize - elite.length`
times, here the first argument `n`. -/
def fillPop (rng : ℕ → ℚ) (pop : List Chromosome) :
    ℕ → ℕ → List Chromosome → List Chromosome
  | 0, _, acc => acc
  | n + 1, k, acc =>
    if rng k < crossoverRate then
      let s1 := selectParent rng (k + 1) pop
      let s2 := selectParent rng s1.2 pop
      let child := crossover (rng s2.2) s1.1 s2.1
      let m := mutate rng (s2.2 + 1) child
      fillPop rng pop n m.2 (acc ++ [m.1])
    else
      let s := selectParent rng (k + 1) pop
      let m := mutate rng s.2 s.1
      fillPop rng pop n m.2 (acc ++ [m.1])

/-- `evolve` (trafficAnalysis.ts lines 419-445): score the population,
stable-sort descending by fitness, keep the top `eliteSize` unchanged,
refill by reproduction, return the new population and `population[0]`.
The caller in Index.tsx passes a third `vehicleCounts` argument that the
method signature ignores.  `rng` is the ambient `Math.random` stream,
indexed from this call's first draw. -/
def evolve (rng : ℕ → ℚ) (pop : List Chromosome)
    (congestionLevels : List ℚ) (emergencyFlags : List Bool) :
    List Chromosome × Chromosome :=
  let scored := pop.map fun ch =>
    { ch with fitness := scoreFitness ch.greenTimes congestionLevels emergencyFlags }
  let sorted := scored.insertionSort fitnessGe
  let elite := sorted.take eliteSize
  let newPop := fillPop rng sorted (populationSize - elite.length) 0 elite
  (newPop, newPop.headD default)

/-- `initialize(laneCount)` (trafficAnalysis.ts lines 353-358): P fresh
chromosomes with genes uniform in [20, 80) and fitness 0.  (The name
differs from the source because of a lexical restriction of this
development.) -/
def initPopulation (rng : ℕ → ℚ) (laneCount : ℕ) : List Chromosome :=
  (List.range populationSize).map fun i =>
    { greenTimes := (List.range laneCount).map fun j =>
        rng (i * laneCount + j) * 60 + 20,
      fitness := 0 }

/-- The per-lane update applied by one tick of the 1 Hz countdown
interval (Index.tsx lines 231-269).  `remainingTime` is the value after
the tick's `remainingTime--`.  Only the active green lane moves
vehicles; every other lane merely counts down a positive
`waitingTime`. -/
def tickLane (currentLaneIdx : ℕ)
    (currentGreenTime remainingTime initialVehicleCount initialCongestion : ℚ)
    (idx : ℕ) (lane : LaneData) : LaneData :=
  if idx = currentLaneIdx ∧ lane.signalState = .green then
    let elapsedTime := currentGreenTime - remainingTime
    let clearingRate : ℚ := if lane.hasEmergency then 2 else 3
    let vehiclesMoved := jsFloor (elapsedTime / clearingRate)
    let vehiclesRemaining := jsMax 0 (initialVehicleCount - (vehiclesMoved : ℚ))
    let targetVehiclesToClear := jsCeil (initialVehicleCount / 2)
    let remainingTime2 :=
      if targetVehiclesToClear ≤ vehiclesMoved ∧ 2 < remainingTime then 2
      else remainingTime
    let newCongestion : ℚ :=
      if 0 < initialVehicleCount ∧ 0 < vehiclesRemaining then
        (jsRound ((vehiclesRemaining / initialVehicleCount) * initialCongestion) : ℚ)
      else 0
    { lane with greenDuration := remainingTime2, vehicleCount := vehiclesRemaining,
                congestionLevel := newCongestion }
  else if 0 < lane.waitingTime then { lane with waitingTime := lane.waitingTime - 1 }
  else lane

/-- The `setLanes(prev => prev.map(...))` of one countdown tick. -/
def tickAll (currentLaneIdx : ℕ)
    (currentGreenTime remainingTime initialVehicleCount initialCongestion : ℚ)
    (lanes : List LaneData) : List LaneData :=
  lanes.mapIdx fun idx lane =>
    tickLane currentLaneIdx currentGreenTime remainingTime initialVehicleCount
      initialCongestion idx lane

/-- A timer callback scheduled by the cycle runner and still pending:
either a queued `runCycle` invocation (with the lane snapshot and loop
counters its closure captured), one armed countdown-interval tick, or
the delayed completion toast of the generation cap. -/
inductive PendingEvent where
  | cycle (capturedLanes : List LaneData) (cycleIndex currentGen : ℕ)
  | countdown (capturedLanes : List LaneData) (order : List OrderEntry)
      (cycleIndex currentLaneIdx : ℕ)
      (currentGreenTime remainingTime initialVehicleCount initialCongestion : ℚ)
  | complete
deriving DecidableEq, Repr

/-- The scheduler state held by the Index component's `useState` hooks,
plus the queue of pending timer callbacks.  `optimizationStartTime`
(wall-clock) and the UI-only `isAnalyzing` flag are outside the
model. -/
structure SysState where
  laneCount : Option ℕ
  lanes : List LaneData
  isOptimizing : Bool
  generation : ℕ
  avgWaitTime : ℤ
  throughput : ℤ
  currentGreenLane : ℕ
  showResults : Bool
  totalVehiclesAtStart : ℚ
  gaPopulation : List Chromosome
  pending : List PendingEvent
deriving Repr

/-- The two named rejections of `start()` (Index.tsx lines 87-101). -/
inductive StartError where
  | NoLanesUploaded
  | NoVehiclesDetected
deriving DecidableEq, Repr

/-- JavaScript `laneCount || 4`: null and 0 are falsy. -/
def jsOrFour : Option ℕ → ℕ
  | none => 4
  | some n => if n = 0 then 4 else n

/-- `startOptimization` (Index.tsx lines 87-120): reject when no lane has
an uploaded image, then when the total vehicle count is 0; both
rejections leave the state untouched.  Otherwise reset the metrics,
seed the GA population and begin the cycle runner (the first `runCycle`
invocation, which the source calls synchronously, enters the queue). -/
def startOptimization (rng : ℕ → ℚ) (s : SysState) :
    Option StartError × SysState :=
  if (s.lanes.filter fun lane => lane.hasImage).length = 0 then
    (some StartError.NoLanesUploaded, s)
  else
    let totalVehicles := (s.lanes.map fun lane => lane.vehicleCount).sum
    if totalVehicles = 0 then (some StartError.NoVehiclesDetected, s)
    else
      (none,
       { s with showResults := false, isOptimizing := true, generation := 0,
                avgWaitTime := 0, throughput := 0, currentGreenLane := 0,
                totalVehiclesAtStart := totalVehicles,
                gaPopulation := initPopulation rng (jsOrFour s.laneCount),
                pending := s.pending ++ [PendingEvent.cycle s.lanes 0 0] })

/-- `reset` (Index.tsx lines 321-333): every state field back to its
default.  The source clears no timer (`countdownInterval` ids and the
`setTimeout(runCycle, ...)` handle stay live), so `pending` is
untouched; the GA object is also not re-created. -/
def reset (s : SysState) : SysState :=
  { laneCount := none, lanes := [], generation := 0, avgWaitTime := 0,
    throughput := 0, currentGreenLane := 0, isOptimizing := false,
    showResults := false, totalVehiclesAtStart := 0,
    gaPopulation := s.gaPopulation, pending := s.pending }

/-- The generation cap of `runGeneticAlgorithm` (Index.tsx line 128). -/
def maxGenerations : ℕ := 100

/-- One execution of the `runCycle` closure (Index.tsx lines 131-316)
firing against the current state `s`.  `capturedLanes`, `cycleIndex` and
`currentGen` are the values its closure captured when scheduled — the
source closure reads the `lanes` binding of the render in which
`runGeneticAlgorithm` was called, never the current React state.  `none`
models the browser hanging in the waiting-time `while` loop. -/
def runCycleStep (rng : ℕ → ℚ) (capturedLanes : List LaneData)
    (cycleIndex currentGen : ℕ) (s : SysState) : Option SysState :=
  let totalVehicles := (capturedLanes.map fun lane => lane.vehicleCount).sum
  if totalVehicles = 0 then
    some { s with isOptimizing := false, showResults := true }
  else
    let congestionLevels := capturedLanes.map fun lane => lane.congestionLevel
    let emergencyFlags := capturedLanes.map fun lane => lane.hasEmergency
    let ev := evolve rng s.gaPopulation congestionLevels emergencyFlags
    let gen := currentGen + 1
    let order := laneOrder capturedLanes
    let currentLaneIdx := (order.getD (cycleIndex % order.length) default).idx
    let nextLaneIdx := (order.getD ((cycleIndex + 1) % order.length) default).idx
    let currentGreenTime := (order.getD (cycleIndex % order.length) default).greenTime
    let waits := cycleWaitTimes capturedLanes order currentLaneIdx cycleIndex
    if waits.all fun w => w.isSome then
      let waitVals := waits.map fun w => w.getD 0
      let totalWait := waitVals.sum
      let halfVehicles :=
        jsCeil ((capturedLanes.getD currentLaneIdx default).vehicleCount / 2)
      let lanes1 := s.lanes.mapIdx fun idx lane =>
        { lane with
            waitingTime := waitVals.getD idx 0,
            greenDuration :=
              (((order.find? fun item : OrderEntry => item.idx == idx).map
                  fun item : OrderEntry => item.greenTime).getD 0) }
      let lanes2 := lanes1.mapIdx fun idx lane =>
        { lane with signalState :=
            if idx = currentLaneIdx then SignalState.green
            else if idx = nextLaneIdx then SignalState.yellow
            else SignalState.red }
      some { s with
        lanes := lanes2,
        generation := gen,
        currentGreenLane := currentLaneIdx + 1,
        avgWaitTime := jsRound (totalWait / (capturedLanes.length : ℚ)),
        throughput := s.throughput + halfVehicles,
        gaPopulation := ev.1,
        pending := s.pending ++
          [PendingEvent.countdown capturedLanes order cycleIndex currentLaneIdx
            currentGreenTime currentGreenTime
            (capturedLanes.getD currentLaneIdx default).vehicleCount
            (capturedLanes.getD currentLaneIdx default).congestionLevel] ++
          (if maxGenerations ≤ gen then [PendingEvent.complete]
           else [PendingEvent.cycle capturedLanes (cycleIndex + 1) gen]) }
    else none

/-- First captured lane of the C9 counterexample: 4 vehicles, no
emergency, congestion 50. -/
def C9lane : LaneData :=
  { hasImage := true, vehicleCount := 4, hasEmergency := false, congestionLevel := 50,
    signalState := .red, waitingTime := 0, greenDuration := 0 }

/-- Second captured lane of the C9 counterexample: 6 vehicles, no
emergency, congestion 80. -/
def C9laneB : LaneData :=
  { hasImage := true, vehicleCount := 6, hasEmergency := false, congestionLevel := 80,
    signalState := .red, waitingTime := 0, greenDuration := 0 }

/-- The captured two-lane snapshot of the C9 counterexample; both lanes
hold vehicles, so the fired cycle's waiting-time computation
terminates. -/
def C9captured : List LaneData := [C9lane, C9laneB]

/-- The GA population held when the C9 counterexample's reset happens: a
full-size population of two-gene chromosomes, as `initialize(2)` creates
for the two configured lanes, so the fired callback's `evolve` call runs
entirely on its normal path (no empty-population error). -/
def C9population : List Chromosome :=
  List.replicate populationSize { greenTimes := [30, 40], fitness := 0 }

/-- A mid-run state with one pending `runCycle` timer, reset in the C9
counterexample. -/
def C9state : SysState :=
  { laneCount := some 2, lanes := [], isOptimizing := true, generation := 5,
    avgWaitTime := 3, throughput := 7, currentGreenLane := 1, showResults := false,
    totalVehiclesAtStart := 10, gaPopulation := C9population,
    pending := [PendingEvent.cycle C9captured 0 0] }

/-- Uploaded lane with 3 vehicles for the C7 witness. -/
def C7lane : LaneData :=
  { hasImage := true, vehicleCount := 3, hasEmergency := false,
    congestionLevel := 20, signalState := .red, waitingTime := 0,
    greenDuration := 0 }

/-- Single-uploaded-lane state for the C7 witness. -/
def C7state : SysState :=
  { laneCount := some 2, lanes := [C7lane], isOptimizing := false,
    generation := 0, avgWaitTime := 0, throughput := 0, currentGreenLane := 0,
    showResults := false, totalVehiclesAtStart := 0, gaPopulation := [],
    pending := [] }

lemma jsMax_eq_max (a b : ℚ) : jsMax a b = max a b := (max_def a b).symm

lemma laneCmp_trans_le {a b c : OrderEntry} (hab : laneCmp a b ≤ 0)
    (hbc : laneCmp b c ≤ 0) : laneCmp a c ≤ 0 := by
  unfold laneCmp at *
  rcases ha : a.isEmergency <;> rcases hb : b.isEmergency <;> rcases hc : c.isEmergency <;>
    simp [ha, hb, hc] at * <;> linarith

lemma laneCmp_neg {a b : OrderEntry} (h : 0 < laneCmp a b) : laneCmp b a < 0 := by
  unfold laneCmp at *
  rcases ha : a.isEmergency <;> rcases hb : b.isEmergency <;>
    simp [ha, hb] at * <;> linarith

lemma laneBefore_of_le_of_idx {a b : OrderEntry} (h : laneCmp a b ≤ 0)
    (hidx : a.idx < b.idx) : laneBefore a b := by
  rcases lt_or_eq_of_le h with h' | h'
  · exact Or.inl h'
  · exact Or.inr ⟨h', hidx⟩

lemma laneBefore_cmp_le {a b : OrderEntry} (h : laneBefore a b) : laneCmp a b ≤ 0 := by
  rcases h with h | ⟨h, _⟩
  · exact le_of_lt h
  · exact le_of_eq h

/-- Inserting an entry whose index is below every index in an already
`laneBefore`-ordered list keeps the list `laneBefore`-ordered. -/
lemma orderedInsert_pairwise (a : OrderEntry) :
    ∀ l : List OrderEntry, l.Pairwise laneBefore → (∀ b ∈ l, a.idx < b.idx) →
      (l.orderedInsert laneLe a).Pairwise laneBefore := by
  intro l
  induction l with
  | nil => intro _ _; simp [List.orderedInsert]
  | cons b t ih =>
    intro hp hidx
    rw [List.orderedInsert]
    by_cases hle : laneLe a b
    · rw [if_pos hle]
      rcases List.pairwise_cons.mp hp with ⟨hbt, htp⟩
      refine List.pairwise_cons.mpr ⟨?_, hp⟩
      intro c hc
      rcases List.mem_cons.mp hc with rfl | hct
      · exact laneBefore_of_le_of_idx hle (hidx c (by simp))
      · refine laneBefore_of_le_of_idx
          (laneCmp_trans_le hle (laneBefore_cmp_le (hbt c hct)))
          (hidx c (by simp [hct]))
    · rw [if_neg hle]
      rcases List.pairwise_cons.mp hp with ⟨hbt, htp⟩
      refine List.pairwise_cons.mpr ⟨?_, ih htp (fun c hc => hidx c (by simp [hc]))⟩
      intro c hc
      rcases (List.mem_orderedInsert laneLe).mp hc with hca | hct
      · rw [hca]
        have : 0 < laneCmp a b := lt_of_not_le hle
        exact Or.inl (laneCmp_neg this)
      · exact hbt c hct

/-- Stable sorting an index-increasing list yields a `laneBefore`-ordered
list. -/
lemma insertionSort_pairwise :
    ∀ l : List OrderEntry, l.Pairwise (fun x y => x.idx < y.idx) →
      (l.insertionSort laneLe).Pairwise laneBefore := by
  intro l
  induction l with
  | nil => intro _; simp
  | cons x t ih =>
    intro hp
    rcases List.pairwise_cons.mp hp with ⟨hxt, htp⟩
    rw [List.insertionSort]
    refine orderedInsert_pairwise x _ (ih htp) ?_
    intro b hb
    exact hxt b ((List.perm_insertionSort laneLe t).mem_iff.mp hb)

lemma mkEntries_idx_lt : ∀ (i : ℕ) (l : List LaneData) (e : OrderEntry),
    e ∈ mkEntries i l → i ≤ e.idx := by
  intro i l
  induction l generalizing i with
  | nil => intro e h; simp [mkEntries] at h
  | cons lane rest ih =>
    intro e h
    rcases List.mem_cons.mp h with rfl | h
    · simp [mkOrderEntry]
    · exact le_trans (Nat.le_succ i) (ih (i + 1) e h)

lemma mkEntries_pairwise : ∀ (i : ℕ) (l : List LaneData),
    (mkEntries i l).Pairwise (fun x y => x.idx < y.idx) := by
  intro i l
  induction l generalizing i with
  | nil => simp [mkEntries]
  | cons lane rest ih =>
    refine List.pairwise_cons.mpr ⟨?_, ih (i + 1)⟩
    intro e he
    have := mkEntries_idx_lt (i + 1) rest e he
    simp [mkOrderEntry]
    omega

lemma mem_mkEntries {e : OrderEntry} : ∀ (i : ℕ) (l : List LaneData),
    e ∈ mkEntries i l → ∃ j lane, l.get? j = some lane ∧ e = mkOrderEntry (i + j) lane := by
  intro i l
  induction l generalizing i with
  | nil => intro h; simp [mkEntries] at h
  | cons lane rest ih =>
    intro h
    rcases List.mem_cons.mp h with rfl | h
    · exact ⟨0, lane, by simp⟩
    · rcases ih (i + 1) h with ⟨j, lane', hget, he⟩
      exact ⟨j + 1, lane', by simpa using hget, by simpa [Nat.add_assoc, Nat.add_comm 1 j] using he⟩

lemma laneBefore_iff (a b : OrderEntry) : laneBefore a b ↔
    ((a.isEmergency = true ∧ b.isEmergency = false) ∨
     (a.isEmergency = b.isEmergency ∧ b.priority < a.priority) ∨
     (a.isEmergency = b.isEmergency ∧ b.priority = a.priority ∧ a.idx < b.idx)) := by
  unfold laneBefore laneCmp
  rcases ha : a.isEmergency <;> rcases hb : b.isEmergency <;>
    simp [ha, hb, sub_neg, sub_eq_zero]

/-- C1 (amended): in the recomputed service order every emergency lane
precedes every non-emergency lane; within equal emergency status the
entry with the higher `priority` comes first (`priority` is the constant
sentinel 100000 for every emergency lane and `congestionLevel` for
non-emergency lanes, so congestion orders only the non-emergency block);
comparator ties keep the original lane-index order (stable sort).  The
order consists of exactly the indexed lanes with positive vehicle
count. -/
theorem C1_service_order_amended (lanes : List LaneData) :
    (laneOrder lanes).Pairwise (fun a b =>
      (a.isEmergency = true ∧ b.isEmergency = false) ∨
      (a.isEmergency = b.isEmergency ∧ b.priority < a.priority) ∨
      (a.isEmergency = b.isEmergency ∧ b.priority = a.priority ∧ a.idx < b.idx)) ∧
    List.Perm (laneOrder lanes)
      ((mkEntries 0 lanes).filter fun e => decide (0 < e.vehicleCount)) := by
  constructor
  · have hpre : ((mkEntries 0 lanes).filter fun e =>
        decide (0 < e.vehicleCount)).Pairwise (fun x y => x.idx < y.idx) :=
      (mkEntries_pairwise 0 lanes).filter _
    exact (insertionSort_pairwise _ hpre).imp fun h => (laneBefore_iff _ _).mp h
  · exact List.perm_insertionSort laneLe _



/-- C1 (counterexample): with two emergency lanes of congestion 10 and 90
(the claim requires the congestion-90 lane first, order [1, 0]), the code
computes order [0, 1]: both lanes share the sentinel priority 100000, the
comparator ties, and the stable sort keeps the original index order. -/
theorem C1_counterexample :
    C1laneLow.hasEmergency = true ∧ C1laneHigh.hasEmergency = true ∧
    0 < C1laneLow.vehicleCount ∧ 0 < C1laneHigh.vehicleCount ∧
    C1laneLow.congestionLevel < C1laneHigh.congestionLevel ∧
    (laneOrder [C1laneLow, C1laneHigh]).map OrderEntry.idx = [0, 1] ∧
    ([0, 1] : List ℕ) ≠ [1, 0] := by
  refine ⟨rfl, rfl, by norm_num [C1laneLow], by norm_num [C1laneHigh],
    by norm_num [C1laneLow, C1laneHigh], ?_, by simp⟩
  have hfil : ((mkEntries 0 [C1laneLow, C1laneHigh]).filter
      fun e => decide (0 < e.vehicleCount)) =
      [mkOrderEntry 0 C1laneLow, mkOrderEntry 1 C1laneHigh] := by
    show List.filter _ [mkOrderEntry 0 C1laneLow, mkOrderEntry 1 C1laneHigh] = _
    rw [List.filter_cons, if_pos (decide_eq_true
          (show (0:ℚ) < (mkOrderEntry 0 C1laneLow).vehicleCount by
            norm_num [mkOrderEntry, C1laneLow])),
        List.filter_cons, if_pos (decide_eq_true
          (show (0:ℚ) < (mkOrderEntry 1 C1laneHigh).vehicleCount by
            norm_num [mkOrderEntry, C1laneHigh])),
        List.filter_nil]
  have hle : laneLe (mkOrderEntry 0 C1laneLow) (mkOrderEntry 1 C1laneHigh) := by
    show laneCmp _ _ ≤ 0
    norm_num [laneCmp, mkOrderEntry, C1laneLow, C1laneHigh]
  unfold laneOrder
  rw [hfil]
  rw [List.insertionSort, List.insertionSort, List.insertionSort,
      List.orderedInsert, List.orderedInsert, if_pos hle]
  rfl



/-- C2 (counterexample): for an emergency lane with 4 vehicles the claim
prescribes greenTime = max(20, ceil(4*0.75)*2) = 20, but the code
computes max(15, ceil(4/2)*2) = 15. -/
theorem C2_counterexample :
    (mkOrderEntry 0 C2lane).greenTime = 15 ∧ specGreenTimeRule C2lane = 20 ∧
    (15 : ℚ) ≠ 20 := by
  have hceil : jsCeil ((4 : ℚ) / 2) = 2 := by unfold jsCeil; norm_num
  have hceil' : jsCeil ((4 : ℚ) * (3 / 4)) = 3 := by unfold jsCeil; norm_num
  refine ⟨?_, ?_, by norm_num⟩
  · show jsMax 15 ((jsCeil ((4 : ℚ) / 2) : ℚ) * 2) = 15
    rw [hceil]
    unfold jsMax
    rw [if_neg (by push_cast; norm_num)]
  · show jsMax 20 ((jsCeil ((4 : ℚ) * (3 / 4)) : ℚ) * 2) = 20
    rw [hceil']
    unfold jsMax
    rw [if_neg (by push_cast; norm_num)]

/-- C2 (amended): every lane entering the service order has positive
vehicle count and gets vehiclesToClear = ceil(vehicleCount * 0.5)
regardless of emergency status, 2s (emergency) or 3s (regular) per
vehicle, and greenTime = max(floor, vehiclesToClear * timePerVehicle)
with a 15s floor for emergency lanes and a 10s floor for regular
lanes. -/
theorem C2_green_time_amended (lanes : List LaneData) (e : OrderEntry)
    (he : e ∈ laneOrder lanes) :
    ∃ lane, lanes.get? e.idx = some lane ∧ 0 < lane.vehicleCount ∧
      e.halfVehicles = jsCeil (lane.vehicleCount * (1/2)) ∧
      e.greenTime = jsMax (if lane.hasEmergency then (15 : ℚ) else 10)
        ((jsCeil (lane.vehicleCount * (1/2)) : ℚ) *
          (if lane.hasEmergency then 2 else 3)) := by
  have hmem := (List.perm_insertionSort laneLe _).mem_iff.mp he
  rcases List.mem_filter.mp hmem with ⟨hmk, hpos⟩
  rcases mem_mkEntries 0 lanes hmk with ⟨j, lane, hget, he'⟩
  simp only [Nat.zero_add] at he'
  have hvc : e.vehicleCount = lane.vehicleCount := by rw [he']; rfl
  have hidx : e.idx = j := by rw [he']; rfl
  refine ⟨lane, by rw [hidx]; exact hget, ?_, ?_, ?_⟩
  · have := of_decide_eq_true hpos
    rwa [hvc] at this
  · rw [he']
    show jsCeil (lane.vehicleCount / 2) = jsCeil (lane.vehicleCount * (1/2))
    rw [mul_one_div]
  · rw [he']
    by_cases hem : lane.hasEmergency <;>
      simp [mkOrderEntry, hem, mul_one_div, div_eq_mul_inv]

/-- C2 (witness for the amended theorem): concrete evaluation on a
single-lane snapshot. -/
theorem C2_green_time_amended_witness :
    (mkOrderEntry 0 C2lane ∈ laneOrder [C2lane]) ∧
    ∃ lane, [C2lane].get? (mkOrderEntry 0 C2lane).idx = some lane ∧
      0 < lane.vehicleCount ∧
      (mkOrderEntry 0 C2lane).halfVehicles = jsCeil (lane.vehicleCount * (1/2)) ∧
      (mkOrderEntry 0 C2lane).greenTime = jsMax (if lane.hasEmergency then (15 : ℚ) else 10)
        ((jsCeil (lane.vehicleCount * (1/2)) : ℚ) *
          (if lane.hasEmergency then 2 else 3)) := by
  have horder : laneOrder [C2lane] = [mkOrderEntry 0 C2lane] := by
    unfold laneOrder
    show (List.filter _ [mkOrderEntry 0 C2lane]).insertionSort laneLe = _
    rw [List.filter_cons, if_pos (decide_eq_true
          (show (0:ℚ) < (mkOrderEntry 0 C2lane).vehicleCount by
            norm_num [mkOrderEntry, C2lane])),
        List.filter_nil]
    rfl
  have hmem : mkOrderEntry 0 C2lane ∈ laneOrder [C2lane] := by
    rw [horder]; exact List.mem_singleton_self _
  exact ⟨hmem, C2_green_time_amended [C2lane] _ hmem⟩

/-- When `findIndex` returned -1, the wait loop's guard can never become
false: the position is a natural number. -/
lemma waitLoopGo_neg_one (order : List OrderEntry) :
    ∀ (fuel pos : ℕ) (w : ℚ), waitLoopGo order (-1) fuel pos w = none := by
  intro fuel
  induction fuel with
  | zero => intro pos w; rfl
  | succ n ih =>
    intro pos w
    rw [waitLoopGo, if_neg (by omega : ((pos : ℤ) ≠ -1))]
    exact ih _ _

lemma C3_laneOrder : laneOrder C3lanes = [mkOrderEntry 0 C3lane0] := by
  have hfil : ((mkEntries 0 C3lanes).filter fun e => decide (0 < e.vehicleCount)) =
      [mkOrderEntry 0 C3lane0] := by
    show List.filter _ [mkOrderEntry 0 C3lane0, mkOrderEntry 1 C3lane1] = _
    rw [List.filter_cons, if_pos (decide_eq_true
          (show (0:ℚ) < (mkOrderEntry 0 C3lane0).vehicleCount by
            norm_num [mkOrderEntry, C3lane0])),
        List.filter_cons, if_neg (by
          simp only [decide_eq_true_eq]
          show ¬((0:ℚ) < (mkOrderEntry 1 C3lane1).vehicleCount)
          norm_num [mkOrderEntry, C3lane1]),
        List.filter_nil]
  unfold laneOrder
  rw [hfil]
  rfl

/-- C3: on the spec's own termination snapshot (5 vehicles in lane 0,
none in lane 1) the very first cycle's waiting-time computation for lane
1 runs forever: the service order contains only lane 0, `findIndex`
returns -1 for lane 1, and the circular position never equals -1, so no
fuel bound makes the loop finish and `runCycle` never reaches the
all-cleared check again. -/
theorem C3_wait_loop_never_terminates :
    0 < (C3lanes.map fun lane => lane.vehicleCount).sum ∧
    jsFindIdx (laneOrder C3lanes) 1 = -1 ∧
    (∀ fuel : ℕ,
      newWaitTime (laneOrder C3lanes)
        ((laneOrder C3lanes).getD (0 % (laneOrder C3lanes).length) default).idx
        0 1 fuel = none) ∧
    ∀ (rng : ℕ → ℚ) (s : SysState), runCycleStep rng C3lanes 0 0 s = none := by
  have horder := C3_laneOrder
  have hsum : (C3lanes.map fun lane => lane.vehicleCount).sum = 5 := by
    norm_num [C3lanes, C3lane0, C3lane1]
  refine ⟨by rw [hsum]; norm_num, by rw [horder]; rfl, ?_, ?_⟩
  · intro fuel
    rw [horder]
    unfold newWaitTime
    rw [show ([mkOrderEntry 0 C3lane0].getD
          (0 % [mkOrderEntry 0 C3lane0].length) default).idx = 0 from rfl,
        if_neg (by omega : (1 : ℕ) ≠ 0),
        show jsFindIdx [mkOrderEntry 0 C3lane0] 1 = -1 from rfl]
    exact waitLoopGo_neg_one _ fuel _ 0
  · intro rng s
    have hwaits : cycleWaitTimes C3lanes (laneOrder C3lanes)
        ((laneOrder C3lanes).getD (0 % (laneOrder C3lanes).length) default).idx 0 =
        [some 0, none] := by
      rw [horder]
      show [newWaitTime [mkOrderEntry 0 C3lane0] 0 0 0 1,
            newWaitTime [mkOrderEntry 0 C3lane0] 0 0 1 1] = [some 0, none]
      rfl
    simp only [runCycleStep]
    rw [if_neg (by rw [hsum]; norm_num)]
    rw [if_neg (by rw [hwaits]; simp)]

/-- C10: on a per-second countdown tick, every lane other than the active
green lane keeps its vehicleCount, hasEmergency, congestionLevel,
signalState and greenDuration; its waitingTime drops by exactly 1 when
positive and stays 0 when it is 0. -/
theorem C10_tick_other_lanes_frame (currentLaneIdx : ℕ)
    (currentGreenTime remainingTime initialVehicleCount initialCongestion : ℚ)
    (idx : ℕ) (lane : LaneData) (h : idx ≠ currentLaneIdx) :
    (tickLane currentLaneIdx currentGreenTime remainingTime initialVehicleCount
        initialCongestion idx lane).vehicleCount = lane.vehicleCount ∧
    (tickLane currentLaneIdx currentGreenTime remainingTime initialVehicleCount
        initialCongestion idx lane).hasEmergency = lane.hasEmergency ∧
    (tickLane currentLaneIdx currentGreenTime remainingTime initialVehicleCount
        initialCongestion idx lane).congestionLevel = lane.congestionLevel ∧
    (tickLane currentLaneIdx currentGreenTime remainingTime initialVehicleCount
        initialCongestion idx lane).signalState = lane.signalState ∧
    (tickLane currentLaneIdx currentGreenTime remainingTime initialVehicleCount
        initialCongestion idx lane).greenDuration = lane.greenDuration ∧
    (tickLane currentLaneIdx currentGreenTime remainingTime initialVehicleCount
        initialCongestion idx lane).waitingTime =
      (if 0 < lane.waitingTime then lane.waitingTime - 1 else lane.waitingTime) ∧
    (lane.waitingTime = 0 →
      (tickLane currentLaneIdx currentGreenTime remainingTime initialVehicleCount
        initialCongestion idx lane).waitingTime = 0) := by
  unfold tickLane
  rw [if_neg (fun hc => h hc.1)]
  by_cases hw : 0 < lane.waitingTime
  · rw [if_pos hw]
    refine ⟨rfl, rfl, rfl, rfl, rfl, by rw [if_pos hw], ?_⟩
    intro h0
    rw [h0] at hw
    exact absurd hw (by norm_num)
  · rw [if_neg hw]
    exact ⟨rfl, rfl, rfl, rfl, rfl, by rw [if_neg hw], fun h0 => h0⟩

/-- C10 (witness): a red lane with waitingTime 3 on a tick where lane 0
is green. -/
theorem C10_tick_other_lanes_frame_witness :
    (1 : ℕ) ≠ 0 ∧
    (tickLane 0 15 14 4 50 1
        { hasImage := true, vehicleCount := 6, hasEmergency := false,
          congestionLevel := 30, signalState := .red, waitingTime := 3,
          greenDuration := 0 }).waitingTime =
      (if 0 < (3:ℚ) then (3:ℚ) - 1 else 3) :=
  ⟨by omega,
   (C10_tick_other_lanes_frame 0 15 14 4 50 1
      { hasImage := true, vehicleCount := 6, hasEmergency := false,
        congestionLevel := 30, signalState := .red, waitingTime := 3,
        greenDuration := 0 } (by omega)).2.2.2.2.2.1⟩

/-- C7: `start()` is rejected with NoLanesUploaded when no lane has an
upload, with NoVehiclesDetected when some lane is uploaded but the total
vehicle count is 0, and in both rejections the whole state — lanes,
metrics and GA population — is returned unchanged; otherwise there is no
rejection, optimization starts and the first cycle is queued. -/
theorem C7_start_rejections (rng : ℕ → ℚ) (s : SysState) :
    ((∀ lane ∈ s.lanes, lane.hasImage = false) →
      startOptimization rng s = (some StartError.NoLanesUploaded, s)) ∧
    ((∃ lane ∈ s.lanes, lane.hasImage = true) →
      (s.lanes.map fun lane => lane.vehicleCount).sum = 0 →
      startOptimization rng s = (some StartError.NoVehiclesDetected, s)) ∧
    ((∃ lane ∈ s.lanes, lane.hasImage = true) →
      (s.lanes.map fun lane => lane.vehicleCount).sum ≠ 0 →
      (startOptimization rng s).1 = none ∧
      (startOptimization rng s).2.isOptimizing = true ∧
      (startOptimization rng s).2.pending =
        s.pending ++ [PendingEvent.cycle s.lanes 0 0]) := by
  refine ⟨?_, ?_, ?_⟩
  · intro hnone
    unfold startOptimization
    rw [if_pos]
    rw [List.length_eq_zero, List.filter_eq_nil_iff]
    intro lane hmem
    simp [hnone lane hmem]
  · rintro ⟨lane, hmem, himg⟩ hsum
    unfold startOptimization
    rw [if_neg, if_pos hsum]
    intro hlen
    rw [List.length_eq_zero, List.filter_eq_nil_iff] at hlen
    exact hlen lane hmem (by simp [himg])
  · rintro ⟨lane, hmem, himg⟩ hsum
    unfold startOptimization
    rw [if_neg, if_neg hsum]
    · exact ⟨rfl, rfl, rfl⟩
    · intro hlen
      rw [List.length_eq_zero, List.filter_eq_nil_iff] at hlen
      exact hlen lane hmem (by simp [himg])

/-- C7 (witness): a state with one uploaded lane holding 3 vehicles is
not rejected. -/
theorem C7_start_rejections_witness :
    ((∃ lane ∈ C7state.lanes, lane.hasImage = true) ∧
      (C7state.lanes.map fun lane => lane.vehicleCount).sum ≠ 0) ∧
    (startOptimization (fun _ => 0) C7state).1 = none := by
  constructor
  · exact ⟨⟨C7lane, by simp [C7state], rfl⟩, by norm_num [C7state, C7lane]⟩
  · exact ((C7_start_rejections (fun _ => 0) C7state).2.2
      ⟨C7lane, by simp [C7state], rfl⟩ (by norm_num [C7state, C7lane])).1

/-- C9 (amended): `reset` returns every state field to its default —
laneCount unset, empty lanes, zeroed metrics — and a second reset is a
no-op, but it cancels nothing: the pending timer queue survives
untouched (the source clears no interval and no timeout), so a stale
callback can still fire afterwards (see the counterexample). -/
theorem C9_reset_amended (s : SysState) :
    (reset s).laneCount = none ∧ (reset s).lanes = [] ∧
    (reset s).generation = 0 ∧ (reset s).avgWaitTime = 0 ∧
    (reset s).throughput = 0 ∧ (reset s).currentGreenLane = 0 ∧
    (reset s).isOptimizing = false ∧ (reset s).showResults = false ∧
    (reset s).totalVehiclesAtStart = 0 ∧
    reset (reset s) = reset s ∧
    (reset s).pending = s.pending :=
  ⟨rfl, rfl, rfl, rfl, rfl, rfl, rfl, rfl, rfl, rfl, rfl⟩

lemma C9_laneOrder :
    laneOrder C9captured = [mkOrderEntry 1 C9laneB, mkOrderEntry 0 C9lane] := by
  unfold laneOrder
  show (List.filter _ [mkOrderEntry 0 C9lane, mkOrderEntry 1 C9laneB]).insertionSort
    laneLe = _
  rw [List.filter_cons, if_pos (decide_eq_true
        (show (0:ℚ) < (mkOrderEntry 0 C9lane).vehicleCount by
          norm_num [mkOrderEntry, C9lane])),
      List.filter_cons, if_pos (decide_eq_true
        (show (0:ℚ) < (mkOrderEntry 1 C9laneB).vehicleCount by
          norm_num [mkOrderEntry, C9laneB])),
      List.filter_nil]
  have hne : ¬ laneLe (mkOrderEntry 0 C9lane) (mkOrderEntry 1 C9laneB) := by
    show ¬ (laneCmp _ _ ≤ 0)
    norm_num [laneCmp, mkOrderEntry, C9lane, C9laneB]
  rw [List.insertionSort, List.insertionSort, List.insertionSort,
      List.orderedInsert, List.orderedInsert, if_neg hne]
  rfl

/-- C9 (counterexample): reset does not cancel the pending `runCycle`
timeout.  Resetting `C9state` zeroes generation and throughput but keeps
the full-size GA population and the armed timer; when the still-pending
cycle callback fires, its whole body runs normally (all captured lanes
have vehicles and the population is the usual 100 chromosomes, so
neither the waiting-time loop nor `evolve` can fail first) and it sets
generation to 1 and adds ceil(6/2) = 3 to throughput — state mutates
after reset, refuting the claim that no further mutation can occur. -/
theorem C9_counterexample :
    (reset C9state).generation = 0 ∧ (reset C9state).throughput = 0 ∧
    (reset C9state).pending = [PendingEvent.cycle C9captured 0 0] ∧
    (reset C9state).gaPopulation.length = populationSize ∧
    ((runCycleStep (fun _ => 0) C9captured 0 0 (reset C9state)).map
      fun s1 => s1.generation) = some 1 ∧
    ((runCycleStep (fun _ => 0) C9captured 0 0 (reset C9state)).map
      fun s1 => s1.throughput) = some 3 := by
  have horder := C9_laneOrder
  refine ⟨rfl, rfl, rfl, by simp [reset, C9state, C9population], ?_, ?_⟩ <;>
  · have hwaits : ((cycleWaitTimes C9captured (laneOrder C9captured)
        ((laneOrder C9captured).getD (0 % (laneOrder C9captured).length) default).idx
        0).all fun w => w.isSome) = true := by
      rw [horder]
      rfl
    unfold runCycleStep
    rw [if_neg (show ¬((C9captured.map fun lane => lane.vehicleCount).sum = 0) by
          norm_num [C9captured, C9lane, C9laneB])]
    rw [if_pos hwaits]
    simp only [Option.map_some]
    rw [horder]
    norm_num [reset, C9state, C9captured, C9lane, C9laneB, jsCeil, mkOrderEntry]

/-- A lane's fitness step on a present congestion entry and a live
accumulator adds exactly the spec's per-lane score. -/
lemma fitnessLaneStep_some (hasAny : Bool) (T t c : ℚ) (e : Bool) (a : ℚ) :
    fitnessLaneStep hasAny T t (some c) e (some a) =
      some (a + specFitnessLane hasAny T t c e) := by
  unfold fitnessLaneStep specFitnessLane
  cases e <;> cases hasAny <;>
    simp only [Bool.false_eq_true, if_false, if_true, Option.map_some',
      Bool.true_eq_false, ite_true, ite_false] <;>
    split_ifs <;> simp only [Option.map_some', Option.some.injEq] <;> ring

/-- A missing congestion entry poisons the accumulator (NaN), whatever
its previous value. -/
lemma fitnessLaneStep_congestion_none (hasAny : Bool) (T t : ℚ) (e : Bool)
    (acc : Option ℚ) : fitnessLaneStep hasAny T t none e acc = none := by
  unfold fitnessLaneStep
  split_ifs <;> simp

/-- A poisoned accumulator stays poisoned. -/
lemma fitnessLaneStep_none (hasAny : Bool) (T t : ℚ) (c : Option ℚ) (e : Bool) :
    fitnessLaneStep hasAny T t c e none = none := by
  unfold fitnessLaneStep
  cases c <;> split_ifs <;> simp

lemma foldl_fitness_some (hasAny : Bool) (T : ℚ) (gt c : List ℚ) (fl : List Bool) :
    ∀ l : List ℕ, (∀ i ∈ l, i < c.length) → ∀ a : ℚ,
      l.foldl (fun acc i =>
        fitnessLaneStep hasAny T (gt.getD i 0) (c.get? i) (fl.getD i false) acc)
        (some a) =
      some (a + (l.map fun i =>
        specFitnessLane hasAny T (gt.getD i 0) (c.getD i 0) (fl.getD i false)).sum) := by
  intro l
  induction l with
  | nil => intro _ a; simp
  | cons i t ih =>
    intro hmem a
    have hi : i < c.length := hmem i (by simp)
    have hget : c.get? i = some (c.getD i 0) := by
      rw [List.get?_eq_get hi, List.getD_eq_getElem _ _ hi]
      rfl
    simp only [List.foldl_cons, hget, fitnessLaneStep_some]
    rw [ih (fun j hj => hmem j (by simp [hj]))]
    simp only [List.map_cons, List.sum_cons, Option.some.injEq]
    ring

/-- With the congestion vector covering the chromosome the fitness is an
ordinary number, whatever the flag vector's length. -/
lemma calculateFitness_isSome (gt c : List ℚ) (fl : List Bool)
    (h : gt.length ≤ c.length) :
    (calculateFitness gt c fl).isSome = true := by
  simp only [calculateFitness]
  rw [foldl_fitness_some (fl.any fun f => f) gt.sum gt c fl
    (List.range gt.length) (fun i hi => lt_of_lt_of_le (List.mem_range.mp hi) h) 0]
  split_ifs <;> rfl

/-- C4: on equal-length inputs `calculateFitness` computes exactly the
spec's reference fitness (and in particular never NaN); both are pure
functions of their arguments. -/
theorem C4_fitness_matches_spec (greenTimes congestionLevels : List ℚ)
    (emergencyFlags : List Bool)
    (hc : congestionLevels.length = greenTimes.length)
    (hf : emergencyFlags.length = greenTimes.length) :
    calculateFitness greenTimes congestionLevels emergencyFlags =
      some (specFitness greenTimes congestionLevels emergencyFlags) := by
  simp only [calculateFitness, specFitness]
  rw [foldl_fitness_some (emergencyFlags.any fun f => f) greenTimes.sum greenTimes
    congestionLevels emergencyFlags (List.range greenTimes.length)
    (fun i hi => by rw [hc]; exact List.mem_range.mp hi) 0]
  split_ifs with hcyc <;> simp only [Option.map_some', Option.some.injEq] <;> ring

/-- C4 (witness): two lanes, one emergency. -/
theorem C4_fitness_matches_spec_witness :
    ([40, 80] : List ℚ).length = ([30, 50] : List ℚ).length ∧
    ([false, true] : List Bool).length = ([30, 50] : List ℚ).length ∧
    calculateFitness [30, 50] [40, 80] [false, true] =
      some (specFitness [30, 50] [40, 80] [false, true]) :=
  ⟨rfl, rfl, C4_fitness_matches_spec [30, 50] [40, 80] [false, true] rfl rfl⟩

lemma any_append_replicate_false (fl : List Bool) (n : ℕ) :
    ((fl ++ List.replicate n false).any fun f => f) = (fl.any fun f => f) := by
  simp

lemma getD_append_replicate_false (fl : List Bool) (n i : ℕ) :
    (fl ++ List.replicate n false).getD i false = fl.getD i false := by
  rcases lt_or_ge i fl.length with h | h
  · exact List.getD_append _ _ _ _ h
  · rw [List.getD_eq_default _ _ h,
      List.getD_append_right _ _ _ _ h]
    rcases lt_or_ge (i - fl.length) n with h2 | h2
    · rw [List.getD_eq_getElem _ _ (by simpa using h2)]
      simp
    · rw [List.getD_eq_default]
      simpa using h2

/-- Padding the emergency-flag vector with `false` never changes the
fitness: an out-of-range `emergencyFlags[i]` is `undefined`, which is
falsy everywhere it is used, exactly like an explicit `false`. -/
lemma calculateFitness_append_false (gt c : List ℚ) (fl : List Bool) (n : ℕ) :
    calculateFitness gt c (fl ++ List.replicate n false) =
      calculateFitness gt c fl := by
  simp only [calculateFitness, any_append_replicate_false, getD_append_replicate_false]

lemma foldl_fitness_none (hasAny : Bool) (T : ℚ) (gt c : List ℚ) (fl : List Bool) :
    ∀ l : List ℕ,
      l.foldl (fun acc i =>
        fitnessLaneStep hasAny T (gt.getD i 0) (c.get? i) (fl.getD i false) acc)
        none = none := by
  intro l
  induction l with
  | nil => rfl
  | cons i t ih => simp only [List.foldl_cons, fitnessLaneStep_none, ih]

/-- A congestion vector shorter than the chromosome makes the fitness
NaN: the lane at index `congestionLevels.length` reads `undefined / 100`
and the poisoned accumulator survives to the end. -/
lemma calculateFitness_short_congestion (gt c : List ℚ) (fl : List Bool)
    (h : c.length < gt.length) :
    calculateFitness gt c fl = none := by
  simp only [calculateFitness]
  have hmem : c.length ∈ List.range gt.length := List.mem_range.mpr h
  rcases List.append_of_mem hmem with ⟨s, t, hst⟩
  rw [hst, List.foldl_append, List.foldl_cons]
  rw [show c.get? c.length = none from List.get?_eq_none.mpr (le_refl _)]
  rw [fitnessLaneStep_congestion_none, foldl_fitness_none]
  split_ifs <;> rfl

/-- C6 (amended): neither `calculateFitness` nor `evolve` validates
vector lengths and no invalid-input error exists; a missing
`emergencyFlags` entry is silently treated as the default `false`, and a
missing `congestionLevels` entry silently poisons the fitness to NaN. -/
theorem C6_no_length_validation :
    (∀ (gt c : List ℚ) (fl : List Bool) (n : ℕ),
      calculateFitness gt c (fl ++ List.replicate n false) =
        calculateFitness gt c fl) ∧
    (∀ (gt c : List ℚ) (fl : List Bool), c.length < gt.length →
      calculateFitness gt c fl = none) :=
  ⟨calculateFitness_append_false, calculateFitness_short_congestion⟩

/-- C6 (witness): a one-entry congestion vector against a two-gene
chromosome yields NaN rather than an error. -/
theorem C6_no_length_validation_witness :
    (([50] : List ℚ).length < ([30, 50] : List ℚ).length) ∧
    calculateFitness [30, 50] [50] [false, false] = none :=
  ⟨by simp, C6_no_length_validation.2 [30, 50] [50] [false, false] (by simp)⟩

/-- C6 (counterexample): `calculateFitness` called with a 2-gene
chromosome but a 1-entry emergencyFlags vector does not fail: it returns
an ordinary value, the very value obtained by padding the missing entry
with the default `false` — the call is mismatched, yet nothing rejects
it. -/
theorem C6_counterexample :
    ([true] : List Bool).length ≠ ([30, 50] : List ℚ).length ∧
    calculateFitness [30, 50] [40, 80] [true] =
      calculateFitness [30, 50] [40, 80] [true, false] ∧
    (calculateFitness [30, 50] [40, 80] [true]).isSome = true := by
  refine ⟨by simp, ?_, ?_⟩
  · have := calculateFitness_append_false [30, 50] [40, 80] [true] 1
    simpa using this.symm
  · exact calculateFitness_isSome [30, 50] [40, 80] [true] (by simp)

/-- With a draw in [0, 1), `Math.floor(r * len)` is a valid index. -/
lemma jsRandIdx_lt {r : ℚ} (h0 : 0 ≤ r) (h1 : r < 1) {len : ℕ} (hl : 0 < len) :
    jsRandIdx r len < len := by
  unfold jsRandIdx jsFloor
  have hcast : (0 : ℚ) < (len : ℚ) := by exact_mod_cast hl
  have hup : ⌊r * (len : ℚ)⌋ < (len : ℤ) := by
    rw [Int.floor_lt]
    push_cast
    nlinarith
  have hlo : 0 ≤ ⌊r * (len : ℚ)⌋ := Int.floor_nonneg.mpr (by positivity)
  omega

/-- The JS `reduce` of the tournament picks one of its members. -/
lemma foldl_best_mem :
    ∀ (ts : List Chromosome) (t : Chromosome),
      ts.foldl (fun best cur => if best.fitness < cur.fitness then cur else best) t
        ∈ t :: ts := by
  intro ts
  induction ts with
  | nil => intro t; simp
  | cons c cs ih =>
    intro t
    simp only [List.foldl_cons]
    by_cases h : t.fitness < c.fitness
    · rw [if_pos h]
      have := ih c
      simp only [List.mem_cons] at this ⊢
      tauto
    · rw [if_neg h]
      have := ih t
      simp only [List.mem_cons] at this ⊢
      tauto

/-- Under a valid random stream, tournament selection returns a member
of the (nonempty) population. -/
lemma selectParent_mem (rng : ℕ → ℚ) (k : ℕ) {pop : List Chromosome}
    (hpop : pop ≠ []) (hr : ValidRng rng) : (selectParent rng k pop).1 ∈ pop := by
  have hlen : 0 < pop.length := List.length_pos.mpr hpop
  have hpick : ∀ j, pop.getD (jsRandIdx (rng (k + j)) pop.length) default ∈ pop := by
    intro j
    have hidx := jsRandIdx_lt (hr (k + j)).1 (hr (k + j)).2 hlen
    rw [List.getD_eq_getElem _ _ hidx]
    exact List.getElem_mem hidx
  have : (selectParent rng k pop).1 =
      List.foldl (fun best cur => if best.fitness < cur.fitness then cur else best)
        (pop.getD (jsRandIdx (rng (k + 0)) pop.length) default)
        [pop.getD (jsRandIdx (rng (k + 1)) pop.length) default,
         pop.getD (jsRandIdx (rng (k + 2)) pop.length) default,
         pop.getD (jsRandIdx (rng (k + 3)) pop.length) default,
         pop.getD (jsRandIdx (rng (k + 4)) pop.length) default] := rfl
  rw [this]
  have hmem := foldl_best_mem
    [pop.getD (jsRandIdx (rng (k + 1)) pop.length) default,
     pop.getD (jsRandIdx (rng (k + 2)) pop.length) default,
     pop.getD (jsRandIdx (rng (k + 3)) pop.length) default,
     pop.getD (jsRandIdx (rng (k + 4)) pop.length) default]
    (pop.getD (jsRandIdx (rng (k + 0)) pop.length) default)
  rcases List.mem_cons.mp hmem with h | h
  · rw [h]; exact hpick 0
  · simp only [List.mem_cons, List.not_mem_nil, or_false] at h
    rcases h with h | h | h | h <;> rw [h]
    · exact hpick 1
    · exact hpick 2
    · exact hpick 3
    · exact hpick 4

lemma length_mutateGenes (rng : ℕ → ℚ) :
    ∀ (k : ℕ) (l : List ℚ), (mutateGenes rng k l).1.length = l.length := by
  intro k l
  induction l generalizing k with
  | nil => rfl
  | cons t ts ih =>
    rw [mutateGenes]
    split_ifs <;> simp [ih]

/-- Single-point crossover preserves the gene count. -/
lemma crossover_length {p1 p2 : Chromosome} {L : ℕ} (r : ℚ)
    (h1 : p1.greenTimes.length = L) (h2 : p2.greenTimes.length = L) :
    (crossover r p1 p2).greenTimes.length = L := by
  simp only [crossover, List.length_append, List.length_take, List.length_drop]
  omega

lemma mutate_length (rng : ℕ → ℚ) (k : ℕ) {c : Chromosome} {L : ℕ}
    (h : c.greenTimes.length = L) : (mutate rng k c).1.greenTimes.length = L := by
  simp only [mutate, length_mutateGenes, h]

lemma length_fillPop (rng : ℕ → ℚ) (pop : List Chromosome) :
    ∀ (n k : ℕ) (acc : List Chromosome),
      (fillPop rng pop n k acc).length = acc.length + n := by
  intro n
  induction n with
  | zero => intro k acc; rfl
  | succ m ih =>
    intro k acc
    rw [fillPop]
    split_ifs <;> rw [ih] <;> simp <;> omega

lemma headD_fillPop (rng : ℕ → ℚ) (pop : List Chromosome) :
    ∀ (n k : ℕ) (acc : List Chromosome) (d : Chromosome), acc ≠ [] →
      (fillPop rng pop n k acc).headD d = acc.headD d := by
  intro n
  induction n with
  | zero => intro k acc d _; rfl
  | succ m ih =>
    intro k acc d hacc
    have happ : ∀ x : Chromosome, (acc ++ [x]).headD d = acc.headD d := by
      intro x
      cases acc with
      | nil => exact absurd rfl hacc
      | cons a t => rfl
    have hne : ∀ x : Chromosome, acc ++ [x] ≠ [] := by
      intro x
      cases acc <;> simp
    rw [fillPop]
    split_ifs <;> rw [ih _ _ _ (hne _), happ]

/-- Every chromosome produced by the reproduction loop keeps the gene
count, provided the source population and the seed do. -/
lemma fillPop_length_invariant (rng : ℕ → ℚ) {pop : List Chromosome} {L : ℕ}
    (hr : ValidRng rng) (hpop : pop ≠ [])
    (hp : ∀ ch ∈ pop, ch.greenTimes.length = L) :
    ∀ (n k : ℕ) (acc : List Chromosome),
      (∀ ch ∈ acc, ch.greenTimes.length = L) →
      ∀ ch ∈ fillPop rng pop n k acc, ch.greenTimes.length = L := by
  intro n
  induction n with
  | zero => intro k acc hacc; exact hacc
  | succ m ih =>
    intro k acc hacc
    rw [fillPop]
    have hsel : ∀ j, ((selectParent rng j pop).1).greenTimes.length = L :=
      fun j => hp _ (selectParent_mem rng j hpop hr)
    split_ifs
    · refine ih _ _ ?_
      intro ch hch
      rcases List.mem_append.mp hch with h | h
      · exact hacc ch h
      · rw [List.mem_singleton.mp h]
        exact mutate_length rng _ (crossover_length _ (hsel _) (hsel _))
    · refine ih _ _ ?_
      intro ch hch
      rcases List.mem_append.mp hch with h | h
      · exact hacc ch h
      · rw [List.mem_singleton.mp h]
        exact mutate_length rng _ (hsel _)

/-- The head of the descending sort beats every list member. -/
lemma sorted_head_max (l : List Chromosome) (ch : Chromosome) (h : ch ∈ l) :
    ch.fitness ≤ ((l.insertionSort fitnessGe).headD default).fitness := by
  have hmem : ch ∈ l.insertionSort fitnessGe :=
    (List.perm_insertionSort fitnessGe l).mem_iff.mpr h
  have hsorted := List.sorted_insertionSort fitnessGe l
  cases hs : l.insertionSort fitnessGe with
  | nil => rw [hs] at hmem; simp at hmem
  | cons hd tl =>
    rw [hs] at hmem hsorted
    rcases List.mem_cons.mp hmem with h1 | h1
    · rw [h1]
      exact le_refl _
    · exact (List.pairwise_cons.mp hsorted).1 ch h1

/-- C5: with a population of size P = 100 whose chromosomes all have
`laneCount` genes, any `evolve` call keeps the population size at 100 and
every gene vector at length `laneCount`, and the returned best
chromosome is exactly the top of the scored-and-sorted prior generation,
carried over unmutated, so its fitness dominates every scored chromosome
of the prior generation (in particular the bottom P - E slice). -/
theorem C5_evolve_invariants (rng : ℕ → ℚ) (hr : ValidRng rng)
    (pop : List Chromosome) (laneCount : ℕ)
    (hlen : pop.length = populationSize)
    (hgl : ∀ ch ∈ pop, ch.greenTimes.length = laneCount)
    (congestionLevels : List ℚ) (emergencyFlags : List Bool) :
    (evolve rng pop congestionLevels emergencyFlags).1.length = populationSize ∧
    (∀ ch ∈ (evolve rng pop congestionLevels emergencyFlags).1,
      ch.greenTimes.length = laneCount) ∧
    (evolve rng pop congestionLevels emergencyFlags).2 =
      ((pop.map fun ch =>
        { ch with fitness :=
            scoreFitness ch.greenTimes congestionLevels emergencyFlags
        }).insertionSort fitnessGe).headD default ∧
    (∀ ch ∈ pop,
      scoreFitness ch.greenTimes congestionLevels emergencyFlags ≤
        (evolve rng pop congestionLevels emergencyFlags).2.fitness) := by
  have hslen : ((pop.map fun ch =>
      { ch with fitness :=
          scoreFitness ch.greenTimes congestionLevels emergencyFlags
      }).insertionSort fitnessGe).length = populationSize := by
    rw [(List.perm_insertionSort fitnessGe _).length_eq, List.length_map, hlen]
  have hsne : (pop.map fun ch =>
      { ch with fitness :=
          scoreFitness ch.greenTimes congestionLevels emergencyFlags
      }).insertionSort fitnessGe ≠ [] := by
    intro h
    rw [h] at hslen
    simp [populationSize] at hslen
  have hsgl : ∀ ch ∈ (pop.map fun ch =>
      { ch with fitness :=
          scoreFitness ch.greenTimes congestionLevels emergencyFlags
      }).insertionSort fitnessGe, ch.greenTimes.length = laneCount := by
    intro ch hch
    have := (List.perm_insertionSort fitnessGe _).mem_iff.mp hch
    rcases List.mem_map.mp this with ⟨pre, hpre, hch2⟩
    rw [← hch2]
    exact hgl pre hpre
  have helite_len : ((pop.map fun ch =>
      { ch with fitness :=
          scoreFitness ch.greenTimes congestionLevels emergencyFlags
      }).insertionSort fitnessGe).take eliteSize ≠ [] := by
    cases hs : (pop.map fun ch =>
        { ch with fitness :=
            scoreFitness ch.greenTimes congestionLevels emergencyFlags
        }).insertionSort fitnessGe with
    | nil => exact absurd hs hsne
    | cons hd tl => simp [eliteSize]
  refine ⟨?_, ?_, ?_, ?_⟩
  · show (fillPop rng _ _ 0 _).length = populationSize
    rw [length_fillPop, List.length_take, hslen]
    simp [populationSize, eliteSize]
  · intro ch hch
    refine fillPop_length_invariant rng hr hsne hsgl _ _ _ ?_ ch hch
    intro c hc
    exact hsgl c (List.mem_of_mem_take hc)
  · show (fillPop rng _ _ 0 _).headD default = _
    rw [headD_fillPop _ _ _ _ _ _ helite_len]
    cases hs : (pop.map fun ch =>
        { ch with fitness :=
            scoreFitness ch.greenTimes congestionLevels emergencyFlags
        }).insertionSort fitnessGe with
    | nil => exact absurd hs hsne
    | cons hd tl => simp [eliteSize]
  · intro ch hch
    have hbest := sorted_head_max (pop.map fun ch =>
      { ch with fitness :=
          scoreFitness ch.greenTimes congestionLevels emergencyFlags })
      { ch with fitness :=
          scoreFitness ch.greenTimes congestionLevels emergencyFlags }
      (List.mem_map.mpr ⟨ch, hch, rfl⟩)
    have hbesteq : (evolve rng pop congestionLevels emergencyFlags).2 =
        ((pop.map fun ch =>
          { ch with fitness :=
              scoreFitness ch.greenTimes congestionLevels emergencyFlags
          }).insertionSort fitnessGe).headD default := by
      show (fillPop rng _ _ 0 _).headD default = _
      rw [headD_fillPop _ _ _ _ _ _ helite_len]
      cases hs : (pop.map fun ch =>
          { ch with fitness :=
              scoreFitness ch.greenTimes congestionLevels emergencyFlags
          }).insertionSort fitnessGe with
      | nil => exact absurd hs hsne
      | cons hd tl => simp [eliteSize]
    rw [hbesteq]
    exact hbest

/-- C5 (witness): a uniform population of 100 two-gene chromosomes under
the constant-zero draw stream. -/
theorem C5_evolve_invariants_witness :
    ValidRng (fun _ => 0) ∧
    (List.replicate 100 ({ greenTimes := [30, 40], fitness := 0 } : Chromosome)).length
      = populationSize ∧
    (∀ ch ∈ List.replicate 100 ({ greenTimes := [30, 40], fitness := 0 } : Chromosome),
      ch.greenTimes.length = 2) ∧
    (evolve (fun _ => 0)
      (List.replicate 100 { greenTimes := [30, 40], fitness := 0 })
      [50, 60] [false, false]).1.length = populationSize := by
  have hv : ValidRng (fun _ => 0) := fun i => ⟨le_refl 0, by norm_num⟩
  have hl : (List.replicate 100
      ({ greenTimes := [30, 40], fitness := 0 } : Chromosome)).length
      = populationSize := by simp [populationSize]
  have hg : ∀ ch ∈ List.replicate 100
      ({ greenTimes := [30, 40], fitness := 0 } : Chromosome),
      ch.greenTimes.length = 2 := by
    intro ch hch
    rw [List.eq_of_mem_replicate hch]
    rfl
  exact ⟨hv, hl, hg,
    (C5_evolve_invariants (fun _ => 0) hv _ 2 hl hg [50, 60] [false, false]).1⟩

end YoloFlow
